import Mathlib

/-!
Verification of the VAGI V1 boundary-tracing core.

This file gives a shallow embedding of the `v1_clean` sources
(`core/data_structures.py`, `edge_filler.py`, `edge_runner.py`,
`chain_filter.py`) and proves or refutes the frozen claims about them.

Modelling conventions:
* Python tile coordinates `(i, j)` are pairs of `Int` (offsets can be
  negative before the in-bounds test filters them out).
* The mutable grid of `Cell` objects is a function from positions to
  cells; in-place mutation becomes functional update.
* The two possible step distances `1.0` and `math.sqrt(2)` are embedded
  as the two-constructor type `StepDist` (their numeric values play no role
  in any claim).
* Functions that can raise in Python (`get_direction` on non-adjacent
  tiles, `get_distance` on a bad code) return `Option`; `none` models
  the raised exception.
* The recursive tracer is embedded with explicit fuel; `none` means the
  run did not complete within the given fuel.  All tracer claims are
  stated for runs that complete (`= some _`).
-/

abbrev Pos := Int × Int

/-- `Cell` from `core/data_structures.py`: per-tile mutable state with the
    constructor defaults `activation=0, visited=0, chain_id=-1,
    index_in_chain=-1`. -/
structure Cell where
  activation : Int := 0
  visited : Int := 0
  chain_id : Int := -1
  index_in_chain : Int := -1
deriving DecidableEq, Repr, Inhabited

/-- `CellGrid` from `core/data_structures.py`: a `height × width` array of
    cells, embedded as a total function on positions (out-of-bounds
    positions are never read by the in-bounds-checked code). -/
structure CellGrid where
  height : Nat
  width : Nat
  cells : Pos → Cell

/-- `CellGrid.__init__`: a fresh grid of default cells. -/
def CellGrid.init (height width : Nat) : CellGrid :=
  { height := height, width := width, cells := fun _ => {} }

/-- `CellGrid.in_bounds`. -/
def CellGrid.in_bounds (g : CellGrid) (i j : Int) : Bool :=
  decide (0 ≤ i) && decide (i < (g.height : Int)) &&
  decide (0 ≤ j) && decide (j < (g.width : Int))

/-- Write one cell (models in-place mutation of `self.cells[i][j]`). -/
def CellGrid.setCell (g : CellGrid) (p : Pos) (c : Cell) : CellGrid :=
  { g with cells := fun q => if q = p then c else g.cells q }

/-- `cells[pos].visited = v` (only the `visited` field changes). -/
def CellGrid.setVisited (g : CellGrid) (p : Pos) (v : Int) : CellGrid :=
  g.setCell p { g.cells p with visited := v }

/-- `cells[pos].activation = a`. -/
def CellGrid.setActivation (g : CellGrid) (p : Pos) (a : Int) : CellGrid :=
  g.setCell p { g.cells p with activation := a }

/-- The three consecutive assignments the tracer performs when it claims a
    tile: `cells[pos].visited = 1; cells[pos].chain_id = cid;
    cells[pos].index_in_chain = idx`. -/
def CellGrid.claim (g : CellGrid) (p : Pos) (cid idx : Int) : CellGrid :=
  g.setCell p { g.cells p with visited := 1, chain_id := cid, index_in_chain := idx }

/-- The step distances `1.0` and `math.sqrt(2)`, embedded symbolically. -/
inductive StepDist where
  | one
  | sqrt_two
deriving DecidableEq, Repr

/-- `Chain` from `core/data_structures.py`. -/
structure Chain where
  steps : List (Nat × StepDist) := []
  tiles : List Pos := []
  chain_id : Int := -1
  spliced : Bool := false
deriving DecidableEq, Repr, Inhabited

/-- `Chain.start_pos`: `tiles[0]` if nonempty else `None`. -/
def Chain.start_pos (c : Chain) : Option Pos := c.tiles.head?

/-- `Chain.end_pos`: `tiles[-1]` if nonempty else `None`. -/
def Chain.end_pos (c : Chain) : Option Pos := c.tiles.getLast?

/-- `Chain.is_loop`: `len(tiles) >= 2 and start_pos == end_pos`. -/
def Chain.is_loop (c : Chain) : Bool :=
  decide (2 ≤ c.tiles.length) && (c.start_pos == c.end_pos)

/-- `DIRECTION_VECTORS`: 8 compass offsets, N=0 clockwise to NW=7. -/
def DIRECTION_VECTORS : List (Int × Int) :=
  [(-1, 0), (-1, 1), (0, 1), (1, 1), (1, 0), (1, -1), (0, -1), (-1, -1)]

/-- `get_direction`: the code whose offset matches `to - from`; `none`
    models the `ValueError` raised when the tiles are not 8-adjacent. -/
def get_direction (from_pos to_pos : Pos) : Option Nat :=
  let di := to_pos.1 - from_pos.1
  let dj := to_pos.2 - from_pos.2
  DIRECTION_VECTORS.findIdx? (fun v => v == (di, dj))

def ORTHOGONAL_DIRS : List Nat := [0, 2, 4, 6]
def DIAGONAL_DIRS : List Nat := [1, 3, 5, 7]

/-- `get_distance`: `1.0` for orthogonal codes, `sqrt(2)` for diagonal
    codes; `none` models the `ValueError` on any other code. -/
def get_distance (dir_code : Nat) : Option StepDist :=
  if ORTHOGONAL_DIRS.contains dir_code then some .one
  else if DIAGONAL_DIRS.contains dir_code then some .sqrt_two
  else none

/-- `compute_turn_code`: `diff = (new_dir - prev_dir) % 8` mapped through
    the fixed table.  `diff` is always in `[0, 8)` (Lean's `%` on `Int`
    and Python's `%` both return a nonnegative remainder for modulus 8),
    so the table lookup cannot fail; the final catch-all arm is
    unreachable. -/
def compute_turn_code (prev_dir new_dir : Nat) : Nat :=
  let diff := (((new_dir : Int) - (prev_dir : Int)) % 8).toNat
  match diff with
  | 0 => 0
  | 1 => 1
  | 2 => 3
  | 3 => 5
  | 4 => 7
  | 5 => 6
  | 6 => 4
  | 7 => 2
  | _ => 0

/-- `get_neighbors_8`: all in-bounds 8-connected neighbors, in the fixed
    `DIRECTION_VECTORS` order. -/
def get_neighbors_8 (pos : Pos) (grid : CellGrid) : List Pos :=
  DIRECTION_VECTORS.filterMap (fun d =>
    let ni := pos.1 + d.1
    let nj := pos.2 + d.2
    if grid.in_bounds ni nj then some (ni, nj) else none)

/-- The `turn_angles.get(turn_code, 0)` table in `_choose_main_direction`. -/
def turn_angles (turn_code : Nat) : Nat :=
  match turn_code with
  | 0 => 0
  | 1 => 45
  | 2 => 45
  | 3 => 90
  | 4 => 90
  | 5 => 135
  | 6 => 135
  | 7 => 180
  | _ => 0

/-- `a < min_turn` where `min_turn` starts at `float('inf')` (`none`). -/
def lt_min_turn (a : Nat) (min_turn : Option Nat) : Bool :=
  match min_turn with
  | none => true
  | some v => decide (a < v)

/-- The loop body of `_choose_main_direction`, threading
    `(best_neighbor, min_turn)`. -/
def choose_main_go (pos : Pos) (current_dir : Nat) (cands : List Pos)
    (best : Pos) (min_turn : Option Nat) : Option Pos :=
  match cands with
  | [] => some best
  | nb :: rest =>
    match get_direction pos nb with
    | none => none
    | some new_dir =>
      let a := turn_angles (compute_turn_code current_dir new_dir)
      if lt_min_turn a min_turn then choose_main_go pos current_dir rest nb (some a)
      else choose_main_go pos current_dir rest best min_turn

/-- `_choose_main_direction` (the returned `min_turn` component is unused
    by both call sites, so only the neighbor is returned).  `none` models
    the `IndexError` on an empty candidate list (callers always pass a
    nonempty one) or a `ValueError` from `get_direction`. -/
def choose_main_direction (pos : Pos) (current_dir : Nat)
    (candidates : List Pos) : Option Pos :=
  match candidates with
  | [] => none
  | c :: _ => choose_main_go pos current_dir candidates c none

/-- `_choose_splice_target`: delegates to `_choose_main_direction`. -/
def choose_splice_target (pos : Pos) (current_dir : Nat)
    (candidates : List Pos) : Option Pos :=
  choose_main_direction pos current_dir candidates

/-- `edge_filler` from `edge_filler.py`: a fresh grid whose in-bounds cells
    copy the original activation, with a 0 tile promoted to 1 when some
    direction has both `(i-dx, j-dy)` and `(i+dx, j+dy)` in bounds and
    activated in the original plane.  Bookkeeping fields stay at their
    fresh defaults. -/
def edge_filler (cells : CellGrid) : CellGrid :=
  { height := cells.height, width := cells.width,
    cells := fun p =>
      if cells.in_bounds p.1 p.2 then
        if (cells.cells p).activation == 1 then
          { activation := (cells.cells p).activation }
        else if DIRECTION_VECTORS.any (fun d =>
            cells.in_bounds (p.1 - d.1) (p.2 - d.2) &&
            cells.in_bounds (p.1 + d.1) (p.2 + d.2) &&
            ((cells.cells (p.1 - d.1, p.2 - d.2)).activation == 1) &&
            ((cells.cells (p.1 + d.1, p.2 + d.2)).activation == 1))
        then { activation := 1 }
        else { activation := (cells.cells p).activation }
      else {} }

/-- `_touches_border` from `chain_filter.py`. -/
def touches_border (pos : Option Pos) (grid_height grid_width : Int) : Bool :=
  match pos with
  | none => false
  | some (i, j) =>
    if i == 0 || i == grid_height - 1 then true
    else if j == 0 || j == grid_width - 1 then true
    else false

/-- `filter_chains` from `chain_filter.py`: the sequential
    keep/drop loop, embedded as structural recursion over the input
    list. -/
def filter_chains (chains : List Chain) (grid_height grid_width : Int)
    (min_length : Int) : List Chain :=
  match chains with
  | [] => []
  | chain :: rest =>
    let tail := filter_chains rest grid_height grid_width min_length
    if (chain.tiles.length : Int) < min_length then tail
    else if chain.is_loop then chain :: tail
    else if chain.spliced then chain :: tail
    else if touches_border chain.start_pos grid_height grid_width then chain :: tail
    else if touches_border chain.end_pos grid_height grid_width then chain :: tail
    else tail

/-- The keep-predicate exactly as the spec words it: keep `c` iff
    `len(c.tiles) >= min_length` and (`c.is_loop()` or `c.spliced` or
    `start_pos`/`end_pos` touches the border, a `None` position counting
    as not touching). -/
def spec_keep (grid_height grid_width min_length : Int) (c : Chain) : Bool :=
  decide (min_length ≤ (c.tiles.length : Int)) &&
  (c.is_loop || c.spliced ||
   touches_border c.start_pos grid_height grid_width ||
   touches_border c.end_pos grid_height grid_width)

/-- `set_activation_map` from `core/data_structures.py`, which performs
    no shape validation: it walks the grid's own index range in row-major
    order and copies `activation_map[i, j]` into each cell.  The plane is
    a list of rows; a missing entry models the `IndexError` numpy raises,
    which aborts the loop after the writes already performed.  The
    returned flag is `true` iff such an error occurred. -/
def set_activation_map_go (g : CellGrid) (ps : List Pos)
    (activation_map : List (List Int)) : CellGrid × Bool :=
  match ps with
  | [] => (g, false)
  | p :: rest =>
    match activation_map.getD p.1.toNat [] |>.get? p.2.toNat with
    | none => (g, true)
    | some v => set_activation_map_go (g.setActivation p v) rest activation_map

/-- Row-major enumeration of the grid's own index range. -/
def row_major (height width : Nat) : List Pos :=
  (List.range height).flatMap (fun i =>
    (List.range width).map (fun j => (Int.ofNat i, Int.ofNat j)))

/-- `CellGrid.set_activation_map` (see `set_activation_map_go`). -/
def set_activation_map (g : CellGrid) (activation_map : List (List Int)) :
    CellGrid × Bool :=
  set_activation_map_go g (row_major g.height g.width) activation_map

/-- The `active_neighbors` local of the tracer loop: in-bounds 8-neighbors
    with `activation == 1`. -/
def active_nbs (cells : CellGrid) (pos : Pos) : List Pos :=
  (get_neighbors_8 pos cells).filter (fun nb => (cells.cells nb).activation == 1)

/-- The `unvisited` local of the tracer loop. -/
def unvisited_nbs (cells : CellGrid) (pos : Pos) : List Pos :=
  (active_nbs cells pos).filter (fun nb => (cells.cells nb).visited == 0)

/-- The `visited` local of the tracer loop. -/
def visited_nbs (cells : CellGrid) (pos : Pos) : List Pos :=
  (active_nbs cells pos).filter (fun nb => (cells.cells nb).visited == 1)

mutual

/-- `_edge_runner_recursive` from `edge_runner.py`, entry part: claim the
    start tile (`visited`, `chain_id`, `index_in_chain` set together),
    then run the walking loop.  `fuel` bounds the recursion depth; `none`
    means the run was cut off (or an internal exception was raised). -/
def edge_runner_recursive (fuel : Nat) (pos : Pos) (direction : Nat)
    (cells : CellGrid) (chain_steps : List (Nat × StepDist))
    (chain_tiles : List Pos) (parent_chain_id : Int) :
    Option (List Chain × CellGrid) :=
  match fuel with
  | 0 => none
  | fuel + 1 =>
    edge_runner_loop fuel pos direction
      (cells.claim pos parent_chain_id ((chain_tiles.length : Int) - 1))
      chain_steps chain_tiles [] parent_chain_id
termination_by structural fuel

/-- The `while True` walking loop of `_edge_runner_recursive`: partition
    the active neighbors into unvisited and visited, then CASE A (walk or
    branch), CASE B (splice) or CASE C (dead end). -/
def edge_runner_loop (fuel : Nat) (current_pos : Pos) (current_dir : Nat)
    (cells : CellGrid) (current_steps : List (Nat × StepDist))
    (current_tiles : List Pos) (result_chains : List Chain)
    (parent_chain_id : Int) : Option (List Chain × CellGrid) :=
  match fuel with
  | 0 => none
  | fuel + 1 =>
    match unvisited_nbs cells current_pos with
    | [next_pos] =>
      -- CASE A, exactly one unvisited neighbor: take it.
      match get_direction current_pos next_pos with
      | none => none
      | some new_dir =>
        match get_distance new_dir with
        | none => none
        | some dist =>
          edge_runner_loop fuel next_pos new_dir
            (cells.claim next_pos parent_chain_id
              (((current_tiles ++ [next_pos]).length : Int) - 1))
            (current_steps ++ [(compute_turn_code current_dir new_dir, dist)])
            (current_tiles ++ [next_pos]) result_chains parent_chain_id
    | _ :: _ :: _ =>
      -- CASE A, branch point: spawn a chain per extra neighbor, then
      -- continue the main walk into the minimal-turn neighbor.
      match choose_main_direction current_pos current_dir
        (unvisited_nbs cells current_pos) with
      | none => none
      | some main_neighbor =>
        match edge_runner_branches fuel current_pos current_dir main_neighbor
          (unvisited_nbs cells current_pos) cells current_steps current_tiles
          result_chains parent_chain_id with
        | none => none
        | some (result_after, cells_after) =>
          match get_direction current_pos main_neighbor with
          | none => none
          | some new_dir =>
            match get_distance new_dir with
            | none => none
            | some dist =>
              edge_runner_loop fuel main_neighbor new_dir
                (cells_after.claim main_neighbor parent_chain_id
                  (((current_tiles ++ [main_neighbor]).length : Int) - 1))
                (current_steps ++ [(compute_turn_code current_dir new_dir, dist)])
                (current_tiles ++ [main_neighbor]) result_after parent_chain_id
    | [] =>
      if (visited_nbs cells current_pos).length > 0 then
        -- CASE B, splice: step onto a visited neighbor and terminate.
        match choose_splice_target current_pos current_dir
          (visited_nbs cells current_pos) with
        | none => none
        | some splice_neighbor =>
          match get_direction current_pos splice_neighbor with
          | none => none
          | some splice_dir =>
            match get_distance splice_dir with
            | none => none
            | some dist =>
              some (Chain.mk
                (current_steps ++ [(compute_turn_code current_dir splice_dir, dist)])
                (current_tiles ++ [splice_neighbor]) parent_chain_id
                (!(decide (3 ≤ (current_tiles ++ [splice_neighbor]).length) &&
                   ((current_tiles ++ [splice_neighbor]).getLast? ==
                    (current_tiles ++ [splice_neighbor]).head?)))
                :: result_chains, cells)
      else
        -- CASE C, dead end: terminate with `spliced=False`.
        some (Chain.mk current_steps current_tiles parent_chain_id false
          :: result_chains, cells)
termination_by structural fuel

/-- The `for nb in unvisited` branch-spawning loop at a branch point:
    every non-main unvisited neighbor is claimed with a fresh chain id
    `parent_chain_id + len(result_chains) + 1` and fully traced before
    the main walk resumes. -/
def edge_runner_branches (fuel : Nat) (origin : Pos) (current_dir : Nat)
    (main_neighbor : Pos) (cands : List Pos) (cells : CellGrid)
    (current_steps : List (Nat × StepDist)) (current_tiles : List Pos)
    (result_chains : List Chain) (parent_chain_id : Int) :
    Option (List Chain × CellGrid) :=
  match fuel with
  | 0 => none
  | fuel + 1 =>
    match cands with
    | [] => some (result_chains, cells)
    | nb :: rest =>
      if nb = main_neighbor then
        edge_runner_branches fuel origin current_dir main_neighbor rest cells
          current_steps current_tiles result_chains parent_chain_id
      else
        match get_direction origin nb with
        | none => none
        | some branch_dir =>
          match get_distance branch_dir with
          | none => none
          | some branch_dist =>
            match edge_runner_recursive fuel nb branch_dir
              (cells.claim nb (parent_chain_id + result_chains.length + 1)
                (((current_tiles ++ [nb]).length : Int) - 1))
              (current_steps ++ [(compute_turn_code current_dir branch_dir, branch_dist)])
              (current_tiles ++ [nb])
              (parent_chain_id + result_chains.length + 1) with
            | none => none
            | some (branch_chains, cells_after) =>
              edge_runner_branches fuel origin current_dir main_neighbor rest
                cells_after current_steps current_tiles
                (result_chains ++ branch_chains) parent_chain_id
termination_by structural fuel

end

/-- The seed-collection loop of `extract_chains_from_grid`: all activated,
    unvisited tiles in row-major order, read off the initial grid. -/
def seed_list (cells : CellGrid) : List Pos :=
  (row_major cells.height cells.width).filter (fun p =>
    ((cells.cells p).activation == 1) && ((cells.cells p).visited == 0))

/-- `_find_initial_direction`: direction to the first active neighbor in
    the fixed 8-neighbor scan order.  Outer `none` models a raised
    `ValueError` (never happens: the found neighbor is 8-adjacent);
    `some none` is Python's `None` (no active neighbor);
    `some (some d)` is a found direction. -/
def find_initial_direction (pos : Pos) (cells : CellGrid) :
    Option (Option Nat) :=
  match (get_neighbors_8 pos cells).find?
      (fun nb => (cells.cells nb).activation == 1) with
  | none => some none
  | some nb => (get_direction pos nb).map some

/-- Fuel budget for one seed's trace; generous for the recursion depth,
    which is bounded by the number of walk steps plus branch bookkeeping. -/
def runner_fuel (cells : CellGrid) : Nat :=
  (cells.height * cells.width + 1) * (cells.height * cells.width + 1)

/-- The `for seed_pos in seeds` loop of `extract_chains_from_grid`. -/
def seeds_loop (seeds : List Pos) (chains : List Chain) (cells : CellGrid) :
    Option (List Chain × CellGrid) :=
  match seeds with
  | [] => some (chains, cells)
  | seed_pos :: rest =>
    if (cells.cells seed_pos).visited == 1 then
      seeds_loop rest chains cells
    else
      match find_initial_direction seed_pos cells with
      | none => none
      | some none =>
        -- isolated activated tile: mark visited, emit no chain.
        seeds_loop rest chains (cells.setVisited seed_pos 1)
      | some (some initial_dir) =>
        match edge_runner_recursive (runner_fuel cells) seed_pos initial_dir
          cells [] [seed_pos] (chains.length : Int) with
        | none => none
        | some (new_chains, cells) =>
          seeds_loop rest (chains ++ new_chains) cells

/-- `extract_chains_from_grid` from `edge_runner.py`. -/
def extract_chains_from_grid (cells : CellGrid) :
    Option (List Chain × CellGrid) :=
  seeds_loop (seed_list cells) [] cells

/-- Build a fresh grid from a literal activation plane (test fixture:
    `CellGrid(h, w)` followed by setting each in-range activation). -/
def grid_of_act (height width : Nat) (act : List (List Int)) : CellGrid :=
  { height := height, width := width,
    cells := fun p =>
      if 0 ≤ p.1 ∧ 0 ≤ p.2 then
        { activation := ((act.getD p.1.toNat []).getD p.2.toNat 0) }
      else {} }

/-! ## Invariant predicates used by the tracer proofs -/

/-- The spec's Cell invariant, in the form that actually holds after
    tracing: ownership fields are set together, and ownership implies
    `visited`; `visited` stays a 0/1 flag. -/
def CellsOK (g : CellGrid) : Prop :=
  ∀ p : Pos,
    (0 ≤ (g.cells p).chain_id ↔ 0 ≤ (g.cells p).index_in_chain) ∧
    (0 ≤ (g.cells p).chain_id → (g.cells p).visited = 1) ∧
    ((g.cells p).visited = 0 ∨ (g.cells p).visited = 1)

/-- `visited` flags only ever go from 0 to 1. -/
def VisMono (g g' : CellGrid) : Prop :=
  ∀ p : Pos, (g.cells p).visited = 1 → (g'.cells p).visited = 1

/-- Tracing never changes the grid shape or any activation value. -/
def SameShapeAct (g g' : CellGrid) : Prop :=
  g'.height = g.height ∧ g'.width = g.width ∧
  ∀ p : Pos, (g'.cells p).activation = (g.cells p).activation

/-- The per-chain facts every emitted chain satisfies: at least two
    tiles, one more tile than steps, `spliced` exactly when the chain is
    not a closed loop, and no duplicate among the non-final tiles. -/
def ChainOK (c : Chain) : Prop :=
  2 ≤ c.tiles.length ∧ c.tiles.length = c.steps.length + 1 ∧
  c.spliced = !c.is_loop ∧ c.tiles.dropLast.Nodup

/-- A grid whose bookkeeping fields are still at their constructor
    defaults (the state in which a grid reaches the tracer). -/
def Fresh (g : CellGrid) : Prop :=
  ∀ p : Pos, (g.cells p).visited = 0 ∧ (g.cells p).chain_id = -1 ∧
    (g.cells p).index_in_chain = -1

/-- `[base, base+1, ..., base+n-1]`: the chain-id sequence of a trace. -/
def id_list (base : Int) : Nat → List Int
  | 0 => []
  | n + 1 => base :: id_list (base + 1) n

/-- Everything a completed tracer call guarantees, relative to the grid it
    started from and the base chain id. -/
structure RunOut (g g' : CellGrid) (out : List Chain) (base : Int) : Prop where
  cellsOK : CellsOK g'
  mono : VisMono g g'
  shape : SameShapeAct g g'
  chainsOK : ∀ c ∈ out, ChainOK c
  ids : out.map Chain.chain_id = id_list base out.length

/-- Induction statement for `edge_runner_recursive` at a given fuel. -/
def RunGood (fuel : Nat) : Prop :=
  ∀ (pos : Pos) (direction : Nat) (g : CellGrid)
    (steps : List (Nat × StepDist)) (tiles : List Pos) (pcid : Int)
    (out : List Chain) (g' : CellGrid),
    edge_runner_recursive fuel pos direction g steps tiles pcid = some (out, g') →
    g.in_bounds pos.1 pos.2 = true →
    (g.cells pos).activation = 1 →
    (∃ nb ∈ get_neighbors_8 pos g, (g.cells nb).activation = 1) →
    CellsOK g →
    tiles.length = steps.length + 1 →
    tiles.getLast? = some pos →
    (∀ t ∈ tiles.dropLast, (g.cells t).visited = 1) →
    tiles.Nodup →
    0 ≤ pcid →
    RunOut g g' out pcid ∧ (g'.cells pos).visited = 1

/-- Induction statement for `edge_runner_loop` at a given fuel. -/
def LoopGood (fuel : Nat) : Prop :=
  ∀ (cur : Pos) (dir : Nat) (g : CellGrid)
    (steps : List (Nat × StepDist)) (tiles : List Pos) (rc : List Chain)
    (pcid : Int) (out : List Chain) (g' : CellGrid),
    edge_runner_loop fuel cur dir g steps tiles rc pcid = some (out, g') →
    g.in_bounds cur.1 cur.2 = true →
    (g.cells cur).activation = 1 →
    (∃ nb ∈ get_neighbors_8 cur g, (g.cells nb).activation = 1) →
    CellsOK g →
    tiles.length = steps.length + 1 →
    tiles.getLast? = some cur →
    (∀ t ∈ tiles, (g.cells t).visited = 1) →
    tiles.Nodup →
    0 ≤ pcid →
    (∀ c ∈ rc, ChainOK c) →
    rc.map Chain.chain_id = id_list (pcid + 1) rc.length →
    RunOut g g' out pcid

/-- Induction statement for `edge_runner_branches` at a given fuel. -/
def BranchesGood (fuel : Nat) : Prop :=
  ∀ (origin : Pos) (dir : Nat) (main_nb : Pos) (cands : List Pos)
    (g : CellGrid) (steps : List (Nat × StepDist)) (tiles : List Pos)
    (rc : List Chain) (pcid : Int) (out : List Chain) (g' : CellGrid),
    edge_runner_branches fuel origin dir main_nb cands g steps tiles rc pcid =
      some (out, g') →
    g.in_bounds origin.1 origin.2 = true →
    (g.cells origin).activation = 1 →
    CellsOK g →
    tiles.length = steps.length + 1 →
    (∀ t ∈ tiles, (g.cells t).visited = 1) →
    tiles.Nodup →
    (∀ nb ∈ cands, nb ∈ get_neighbors_8 origin g ∧
      (g.cells nb).activation = 1 ∧ nb ∉ tiles) →
    0 ≤ pcid →
    (∀ c ∈ rc, ChainOK c) →
    rc.map Chain.chain_id = id_list (pcid + 1) rc.length →
    RunOut g g' out (pcid + 1)

/-- Concrete fixture grids used by witnesses and counterexamples. -/
def wgrid2 : CellGrid := grid_of_act 1 2 [[1, 1]]

def c5_cx_grid : CellGrid := grid_of_act 1 1 [[1]]

def c6_cx_grid : CellGrid := grid_of_act 3 3 [[1, 0, 1], [0, 1, 0], [0, 1, 0]]

/-! ## Small lemmas about grids and updates -/

theorem setCell_cells_self (g : CellGrid) (p : Pos) (c : Cell) :
    (g.setCell p c).cells p = c := by
  simp [CellGrid.setCell]

theorem setCell_cells_other (g : CellGrid) (p : Pos) (c : Cell) {q : Pos}
    (h : q ≠ p) : (g.setCell p c).cells q = g.cells q := by
  simp [CellGrid.setCell, h]

theorem setCell_height (g : CellGrid) (p : Pos) (c : Cell) :
    (g.setCell p c).height = g.height := rfl

theorem setCell_width (g : CellGrid) (p : Pos) (c : Cell) :
    (g.setCell p c).width = g.width := rfl

theorem claim_cells (g : CellGrid) (p : Pos) (cid idx : Int) (q : Pos) :
    (g.claim p cid idx).cells q =
      if q = p then
        { (g.cells p) with visited := 1, chain_id := cid, index_in_chain := idx }
      else g.cells q := by
  by_cases h : q = p
  · subst h; simp [CellGrid.claim, setCell_cells_self]
  · simp [CellGrid.claim, CellGrid.setCell, h]

theorem claim_activation (g : CellGrid) (p : Pos) (cid idx : Int) (q : Pos) :
    ((g.claim p cid idx).cells q).activation = (g.cells q).activation := by
  rw [claim_cells]; by_cases h : q = p <;> simp [h]

theorem claim_shape (g : CellGrid) (p : Pos) (cid idx : Int) :
    SameShapeAct g (g.claim p cid idx) :=
  ⟨rfl, rfl, claim_activation g p cid idx⟩

theorem claim_mono (g : CellGrid) (p : Pos) (cid idx : Int) :
    VisMono g (g.claim p cid idx) := by
  intro q hq
  rw [claim_cells]
  by_cases h : q = p <;> simp [h, hq]

theorem claim_visited_self (g : CellGrid) (p : Pos) (cid idx : Int) :
    ((g.claim p cid idx).cells p).visited = 1 := by
  rw [claim_cells]; simp

theorem claim_visited_other (g : CellGrid) (p : Pos) (cid idx : Int) {q : Pos}
    (h : q ≠ p) : ((g.claim p cid idx).cells q).visited = (g.cells q).visited := by
  rw [claim_cells]; simp [h]

theorem claim_cellsOK {g : CellGrid} (hg : CellsOK g) (p : Pos) {cid idx : Int}
    (hcid : 0 ≤ cid) (hidx : 0 ≤ idx) : CellsOK (g.claim p cid idx) := by
  intro q
  rw [claim_cells]
  by_cases h : q = p
  · simp [h, hcid, hidx]
  · simp only [if_neg h]; exact hg q

theorem setVisited_cells (g : CellGrid) (p : Pos) (v : Int) (q : Pos) :
    (g.setVisited p v).cells q =
      if q = p then { (g.cells p) with visited := v } else g.cells q := by
  by_cases h : q = p
  · subst h; simp [CellGrid.setVisited, setCell_cells_self]
  · simp [CellGrid.setVisited, CellGrid.setCell, h]

theorem setVisited_shape (g : CellGrid) (p : Pos) (v : Int) :
    SameShapeAct g (g.setVisited p v) := by
  refine ⟨rfl, rfl, fun q => ?_⟩
  rw [setVisited_cells]; by_cases h : q = p <;> simp [h]

theorem setVisited_one_mono (g : CellGrid) (p : Pos) :
    VisMono g (g.setVisited p 1) := by
  intro q hq
  rw [setVisited_cells]
  by_cases h : q = p <;> simp [h, hq]

theorem setVisited_one_cellsOK {g : CellGrid} (hg : CellsOK g) (p : Pos) :
    CellsOK (g.setVisited p 1) := by
  intro q
  rw [setVisited_cells]
  by_cases h : q = p
  · subst h
    refine ⟨?_, ?_, ?_⟩ <;> simp [(hg q).1]
  · simp only [if_neg h]; exact hg q

theorem visMono_refl (g : CellGrid) : VisMono g g := fun _ h => h

theorem visMono_trans {g1 g2 g3 : CellGrid} (h12 : VisMono g1 g2)
    (h23 : VisMono g2 g3) : VisMono g1 g3 := fun p h => h23 p (h12 p h)

theorem sameShapeAct_refl (g : CellGrid) : SameShapeAct g g :=
  ⟨rfl, rfl, fun _ => rfl⟩

theorem sameShapeAct_trans {g1 g2 g3 : CellGrid} (h12 : SameShapeAct g1 g2)
    (h23 : SameShapeAct g2 g3) : SameShapeAct g1 g3 :=
  ⟨h23.1.trans h12.1, h23.2.1.trans h12.2.1,
   fun p => (h23.2.2 p).trans (h12.2.2 p)⟩

theorem in_bounds_eq_of_dims {g g' : CellGrid} (hh : g'.height = g.height)
    (hw : g'.width = g.width) (i j : Int) :
    g'.in_bounds i j = g.in_bounds i j := by
  simp [CellGrid.in_bounds, hh, hw]

/-! ## Lemmas about the 8-neighborhood -/

theorem mem_get_neighbors_8 {q pos : Pos} {g : CellGrid} :
    q ∈ get_neighbors_8 pos g ↔
      ∃ d ∈ DIRECTION_VECTORS, q = (pos.1 + d.1, pos.2 + d.2) ∧
        g.in_bounds q.1 q.2 = true := by
  unfold get_neighbors_8
  rw [List.mem_filterMap]
  constructor
  · rintro ⟨d, hd, hf⟩
    simp only at hf
    by_cases hb : g.in_bounds (pos.1 + d.1) (pos.2 + d.2) = true
    · rw [if_pos hb] at hf
      obtain rfl := Option.some_injective _ hf
      exact ⟨d, hd, rfl, hb⟩
    · rw [if_neg hb] at hf; cases hf
  · rintro ⟨d, hd, rfl, hb⟩
    exact ⟨d, hd, by simp only [if_pos hb]⟩

theorem in_bounds_of_mem_neighbors {q pos : Pos} {g : CellGrid}
    (h : q ∈ get_neighbors_8 pos g) : g.in_bounds q.1 q.2 = true := by
  rcases mem_get_neighbors_8.1 h with ⟨d, -, -, hb⟩
  exact hb

theorem ne_of_mem_neighbors {q pos : Pos} {g : CellGrid}
    (h : q ∈ get_neighbors_8 pos g) : q ≠ pos := by
  rcases mem_get_neighbors_8.1 h with ⟨d, hd, rfl, -⟩
  simp only [DIRECTION_VECTORS, List.mem_cons, List.not_mem_nil, or_false] at hd
  rcases hd with h1|h1|h1|h1|h1|h1|h1|h1 <;> subst h1 <;>
    intro h2 <;> rw [Prod.ext_iff] at h2 <;> simp at h2

theorem mem_neighbors_symm {q pos : Pos} {g : CellGrid}
    (h : q ∈ get_neighbors_8 pos g) (hpos : g.in_bounds pos.1 pos.2 = true) :
    pos ∈ get_neighbors_8 q g := by
  rcases mem_get_neighbors_8.1 h with ⟨d, hd, rfl, -⟩
  apply mem_get_neighbors_8.2
  refine ⟨(-d.1, -d.2), ?_, ?_, by simpa using hpos⟩
  · simp only [DIRECTION_VECTORS, List.mem_cons, List.not_mem_nil, or_false] at hd
    rcases hd with h1|h1|h1|h1|h1|h1|h1|h1 <;> subst h1 <;> simp [DIRECTION_VECTORS]
  · rw [Prod.ext_iff]
    constructor <;> omega

theorem get_neighbors_8_eq_of_dims {g g' : CellGrid} (hh : g'.height = g.height)
    (hw : g'.width = g.width) (pos : Pos) :
    get_neighbors_8 pos g' = get_neighbors_8 pos g := by
  unfold get_neighbors_8
  congr 1
  funext d
  simp only [in_bounds_eq_of_dims hh hw]

/-! ## Lemmas about the minimal-turn choice -/

theorem choose_main_go_mem (pos : Pos) (dir : Nat) :
    ∀ (cands : List Pos) (best r : Pos) (mt : Option Nat) (S : List Pos),
      best ∈ S → (∀ x ∈ cands, x ∈ S) →
      choose_main_go pos dir cands best mt = some r → r ∈ S := by
  intro cands
  induction cands with
  | nil =>
    intro best r mt S hb _ h
    unfold choose_main_go at h
    obtain rfl := Option.some_injective _ h
    exact hb
  | cons nb rest ih =>
    intro best r mt S hb hc h
    unfold choose_main_go at h
    cases hgd : get_direction pos nb with
    | none => rw [hgd] at h; cases h
    | some new_dir =>
      rw [hgd] at h
      simp only at h
      by_cases hlt : lt_min_turn (turn_angles (compute_turn_code dir new_dir)) mt = true
      · rw [if_pos hlt] at h
        exact ih nb r _ S (hc nb (List.mem_cons_self nb rest))
          (fun x hx => hc x (List.mem_cons_of_mem nb hx)) h
      · rw [if_neg hlt] at h
        exact ih best r mt S hb (fun x hx => hc x (List.mem_cons_of_mem nb hx)) h

theorem choose_main_direction_mem {pos : Pos} {dir : Nat} {cands : List Pos}
    {r : Pos} (h : choose_main_direction pos dir cands = some r) : r ∈ cands := by
  unfold choose_main_direction at h
  cases cands with
  | nil => cases h
  | cons c rest =>
    exact choose_main_go_mem pos dir (c :: rest) c r none (c :: rest)
      (List.mem_cons_self c rest) (fun x hx => hx) h

/-! ## Lemmas about `id_list` -/

theorem id_list_length (base : Int) (n : Nat) : (id_list base n).length = n := by
  induction n generalizing base with
  | zero => rfl
  | succ m ih => simp [id_list, ih]

theorem id_list_append (base : Int) (m n : Nat) :
    id_list base (m + n) = id_list base m ++ id_list (base + m) n := by
  induction m generalizing base with
  | zero => simp [id_list]
  | succ k ih =>
    have : k + 1 + n = (k + n) + 1 := by omega
    rw [this]
    simp only [id_list, List.cons_append]
    rw [ih (base + 1)]
    rw [show base + (((k + 1 : Nat)) : Int) = base + 1 + (k : Int) by
      push_cast; ring]

theorem le_of_mem_id_list {x base : Int} {n : Nat} (h : x ∈ id_list base n) :
    base ≤ x := by
  induction n generalizing base with
  | zero => cases h
  | succ m ih =>
    simp only [id_list, List.mem_cons] at h
    rcases h with rfl | h
    · exact le_rfl
    · have := ih h; omega

theorem id_list_nodup (base : Int) (n : Nat) : (id_list base n).Nodup := by
  induction n generalizing base with
  | zero => exact List.nodup_nil
  | succ m ih =>
    refine List.nodup_cons.2 ⟨fun hmem => ?_, ih (base + 1)⟩
    have := le_of_mem_id_list hmem
    omega

/-! ## Neighbor-partition characterizations -/

theorem mem_active_nbs {g : CellGrid} {pos nb : Pos} :
    nb ∈ active_nbs g pos ↔
      nb ∈ get_neighbors_8 pos g ∧ (g.cells nb).activation = 1 := by
  simp [active_nbs, List.mem_filter]

theorem mem_unvisited_nbs {g : CellGrid} {pos nb : Pos} :
    nb ∈ unvisited_nbs g pos ↔
      nb ∈ get_neighbors_8 pos g ∧ (g.cells nb).activation = 1 ∧
      (g.cells nb).visited = 0 := by
  simp [unvisited_nbs, mem_active_nbs, List.mem_filter, and_assoc]

theorem mem_visited_nbs {g : CellGrid} {pos nb : Pos} :
    nb ∈ visited_nbs g pos ↔
      nb ∈ get_neighbors_8 pos g ∧ (g.cells nb).activation = 1 ∧
      (g.cells nb).visited = 1 := by
  simp [visited_nbs, mem_active_nbs, List.mem_filter, and_assoc]

theorem mem_of_getLast? {α : Type} {l : List α} {a x : α}
    (hl : l.getLast? = some a) (hx : x ∈ l) : x ∈ l.dropLast ∨ x = a := by
  induction l with
  | nil => cases hx
  | cons y t ih =>
    cases t with
    | nil =>
      simp only [List.getLast?_singleton, Option.some.injEq] at hl
      simp only [List.mem_singleton] at hx
      right; rw [hx, hl]
    | cons z t2 =>
      rw [List.getLast?_cons_cons] at hl
      rcases List.mem_cons.1 hx with rfl | hx2
      · left; rw [List.dropLast_cons₂]; exact List.mem_cons_self _ _
      · rcases ih hl hx2 with h | h
        · left; rw [List.dropLast_cons₂]; exact List.mem_cons_of_mem _ h
        · right; exact h

theorem some_beq_eq_false {p q : Pos} (h : p ≠ q) :
    ((some p : Option Pos) == some q) = false := by
  have : (some p : Option Pos) ≠ some q := fun hh => h (Option.some_injective _ hh)
  exact beq_eq_false_iff_ne.2 this

/-- At a splice step the code's loop test (`len >= 3` and last == first)
    agrees with `Chain.is_loop` (`len >= 2` and first == last): the only
    gap, a 2-tile chain, cannot be a loop because the splice target is a
    neighbor of (hence differs from) the only other tile. -/
theorem splice_is_loop_eq {tiles : List Pos} {sp cur : Pos}
    (hlast : tiles.getLast? = some cur) (hne : sp ≠ cur) :
    (decide (3 ≤ (tiles ++ [sp]).length) &&
      ((tiles ++ [sp]).getLast? == (tiles ++ [sp]).head?)) =
    (decide (2 ≤ (tiles ++ [sp]).length) &&
      ((tiles ++ [sp]).head? == (tiles ++ [sp]).getLast?)) := by
  cases tiles with
  | nil => cases hlast
  | cons x xs =>
    cases xs with
    | nil =>
      simp only [List.getLast?_singleton, Option.some.injEq] at hlast
      rw [hlast]
      have hg : (([cur] ++ [sp]).getLast? : Option Pos) = some sp :=
        List.getLast?_concat _
      simp only [List.singleton_append] at hg
      rw [List.singleton_append]
      rw [hg]
      rw [show ([cur, sp] : List Pos).head? = some cur from rfl]
      rw [show ([cur, sp] : List Pos).length = 2 from rfl]
      rw [decide_eq_false (by omega : ¬ (3 ≤ 2)),
        decide_eq_true (by omega : 2 ≤ 2)]
      rw [Bool.false_and, Bool.true_and]
      rw [some_beq_eq_false (Ne.symm hne)]
    | cons y ys =>
      have h3 : 3 ≤ ((x :: y :: ys) ++ [sp]).length := by
        simp [List.length_append]
      have h2 : 2 ≤ ((x :: y :: ys) ++ [sp]).length := by omega
      rw [decide_eq_true h3, decide_eq_true h2, Bool.true_and, Bool.true_and]
      by_cases hfl : ((x :: y :: ys) ++ [sp]).getLast? =
          ((x :: y :: ys) ++ [sp]).head?
      · rw [hfl]
      · rw [beq_eq_false_iff_ne.2 hfl,
          beq_eq_false_iff_ne.2 (fun h => hfl h.symm)]

theorem runner_good (fuel : Nat) :
    RunGood fuel ∧ LoopGood fuel ∧ BranchesGood fuel := by
  induction fuel with
  | zero =>
    refine ⟨?_, ?_, ?_⟩
    · intro pos direction g steps tiles pcid out g' hrun
      unfold edge_runner_recursive at hrun
      cases hrun
    · intro cur dir g steps tiles rc pcid out g' hrun
      unfold edge_runner_loop at hrun
      cases hrun
    · intro origin dir main_nb cands g steps tiles rc pcid out g' hrun
      unfold edge_runner_branches at hrun
      cases hrun
  | succ f ih =>
    obtain ⟨ihR, ihL, ihB⟩ := ih
    refine ⟨?_, ?_, ?_⟩
    · -- RunGood (f+1)
      intro pos direction g steps tiles pcid out g' hrun hin hact hnb hok hlen
        hlast hvis hnd hpc
      unfold edge_runner_recursive at hrun
      have hidx : (0 : Int) ≤ (tiles.length : Int) - 1 := by
        have : 1 ≤ tiles.length := by omega
        omega
      have hvis' : ∀ t ∈ tiles,
          (((g.claim pos pcid ((tiles.length : Int) - 1)).cells t).visited) = 1 := by
        intro t ht
        rcases mem_of_getLast? hlast ht with h | rfl
        · exact claim_mono g pos pcid _ t (hvis t h)
        · exact claim_visited_self g t pcid _
      have hL := ihL pos direction _ steps tiles [] pcid out g' hrun
        (by rw [in_bounds_eq_of_dims rfl rfl]; exact hin)
        (by rw [claim_activation]; exact hact)
        (by
          obtain ⟨nb, hnbm, hnba⟩ := hnb
          refine ⟨nb, ?_, ?_⟩
          · rw [get_neighbors_8_eq_of_dims rfl rfl]; exact hnbm
          · rw [claim_activation]; exact hnba)
        (claim_cellsOK hok pos hpc hidx)
        hlen hlast hvis' hnd hpc
        (by intro c hc; cases hc)
        rfl
      refine ⟨?_, ?_⟩
      · exact { cellsOK := hL.cellsOK
                mono := visMono_trans (claim_mono g pos pcid _) hL.mono
                shape := sameShapeAct_trans (claim_shape g pos pcid _) hL.shape
                chainsOK := hL.chainsOK
                ids := hL.ids }
      · exact hL.mono pos (claim_visited_self g pos pcid _)
    · -- LoopGood (f+1)
      intro cur dir g steps tiles rc pcid out g' hrun hin hact hnb hok hlen
        hlast hvis hnd hpc hrc hrcids
      unfold edge_runner_loop at hrun
      split at hrun
      · -- CASE A, single unvisited neighbor
        rename_i next_pos heq
        split at hrun
        · cases hrun
        rename_i new_dir hgd
        split at hrun
        · cases hrun
        rename_i dist hgdist
        obtain ⟨hnm, hna, hnv⟩ := mem_unvisited_nbs.1
          (show next_pos ∈ unvisited_nbs g cur by
            rw [heq]; exact List.mem_cons_self _ _)
        have hnextnin : next_pos ∉ tiles := by
          intro ht
          have h1 := hvis next_pos ht
          rw [hnv] at h1
          cases h1
        have hndn : (tiles ++ [next_pos]).Nodup := by
          refine List.Nodup.append hnd (List.nodup_singleton _) ?_
          intro a ha hb
          rw [List.mem_singleton] at hb
          exact hnextnin (hb ▸ ha)
        have hL := ihL next_pos new_dir _
          (steps ++ [(compute_turn_code dir new_dir, dist)])
          (tiles ++ [next_pos]) rc pcid out g' hrun
          (by rw [in_bounds_eq_of_dims rfl rfl]
              exact in_bounds_of_mem_neighbors hnm)
          (by rw [claim_activation]; exact hna)
          (by refine ⟨cur, ?_, ?_⟩
              · rw [get_neighbors_8_eq_of_dims rfl rfl]
                exact mem_neighbors_symm hnm hin
              · rw [claim_activation]; exact hact)
          (claim_cellsOK hok next_pos hpc (by simp [List.length_append]))
          (by simp [hlen])
          (List.getLast?_concat _)
          (by intro t ht
              rcases List.mem_append.1 ht with h | h
              · exact claim_mono g next_pos _ _ t (hvis t h)
              · rw [List.mem_singleton] at h
                subst h
                exact claim_visited_self g t _ _)
          hndn hpc hrc hrcids
        exact { cellsOK := hL.cellsOK,
                mono := visMono_trans (claim_mono g next_pos _ _) hL.mono,
                shape := sameShapeAct_trans (claim_shape g next_pos _ _) hL.shape,
                chainsOK := hL.chainsOK,
                ids := hL.ids }
      · -- CASE A, branch point
        rename_i a b t heq
        split at hrun
        · cases hrun
        rename_i main_nb hcm
        split at hrun
        · cases hrun
        rename_i bres rc2 g2 heqbr
        split at hrun
        · cases hrun
        rename_i new_dir hgd
        split at hrun
        · cases hrun
        rename_i dist hgdist
        obtain ⟨hmm, hma, hmv⟩ :=
          mem_unvisited_nbs.1 (choose_main_direction_mem hcm)
        have hmainnin : main_nb ∉ tiles := by
          intro ht
          have h1 := hvis main_nb ht
          rw [hmv] at h1
          cases h1
        have hB := ihB cur dir main_nb (unvisited_nbs g cur) g steps tiles rc
          pcid rc2 g2 heqbr hin hact hok hlen hvis hnd
          (by intro nb h
              obtain ⟨hm2, ha2, hv2⟩ := mem_unvisited_nbs.1 h
              refine ⟨hm2, ha2, ?_⟩
              intro ht
              have h1 := hvis nb ht
              rw [hv2] at h1
              cases h1)
          hpc hrc hrcids
        have sgc2 : SameShapeAct g
            (g2.claim main_nb pcid
              (((tiles ++ [main_nb]).length : Int) - 1)) :=
          sameShapeAct_trans hB.shape (claim_shape g2 main_nb _ _)
        have mgc2 : VisMono g
            (g2.claim main_nb pcid
              (((tiles ++ [main_nb]).length : Int) - 1)) :=
          visMono_trans hB.mono (claim_mono g2 main_nb _ _)
        have hndm : (tiles ++ [main_nb]).Nodup := by
          refine List.Nodup.append hnd (List.nodup_singleton _) ?_
          intro x hx hb
          rw [List.mem_singleton] at hb
          exact hmainnin (hb ▸ hx)
        have hL := ihL main_nb new_dir _
          (steps ++ [(compute_turn_code dir new_dir, dist)])
          (tiles ++ [main_nb]) rc2 pcid out g' hrun
          (by rw [in_bounds_eq_of_dims sgc2.1 sgc2.2.1]
              exact in_bounds_of_mem_neighbors hmm)
          (by rw [sgc2.2.2 main_nb]; exact hma)
          (by refine ⟨cur, ?_, ?_⟩
              · rw [get_neighbors_8_eq_of_dims sgc2.1 sgc2.2.1]
                exact mem_neighbors_symm hmm hin
              · rw [sgc2.2.2 cur]; exact hact)
          (claim_cellsOK hB.cellsOK main_nb hpc (by simp [List.length_append]))
          (by simp [hlen])
          (List.getLast?_concat _)
          (by intro x hx
              rcases List.mem_append.1 hx with h | h
              · exact claim_mono g2 main_nb _ _ x (hB.mono x (hvis x h))
              · rw [List.mem_singleton] at h
                subst h
                exact claim_visited_self g2 x _ _)
          hndm hpc hB.chainsOK hB.ids
        exact { cellsOK := hL.cellsOK,
                mono := visMono_trans mgc2 hL.mono,
                shape := sameShapeAct_trans sgc2 hL.shape,
                chainsOK := hL.chainsOK,
                ids := hL.ids }
      · -- unvisited empty: splice or dead end
        rename_i heq
        split at hrun
        · -- CASE B, splice
          rename_i hvlen
          split at hrun
          · cases hrun
          rename_i sp hcs
          split at hrun
          · cases hrun
          rename_i splice_dir hgd
          split at hrun
          · cases hrun
          rename_i sdist hgdist
          simp only [Option.some.injEq, Prod.mk.injEq] at hrun
          obtain ⟨rfl, rfl⟩ := hrun
          obtain ⟨hsm, hsa, hsv⟩ := mem_visited_nbs.1
            (choose_main_direction_mem hcs)
          have hspne : sp ≠ cur := ne_of_mem_neighbors hsm
          have hlen1 : 1 ≤ tiles.length := by omega
          refine { cellsOK := hok, mono := visMono_refl g,
                   shape := sameShapeAct_refl g,
                   chainsOK := ?_, ids := ?_ }
          · intro c hc
            rcases List.mem_cons.1 hc with rfl | hc2
            · -- ChainOK of the spliced chain
              refine ⟨?_, ?_, ?_, ?_⟩
              · simp only [Chain.mk.injEq, List.length_append,
                  List.length_singleton]
                omega
              · simp [List.length_append, hlen]
              · -- spliced = !is_loop
                show (!(decide (3 ≤ (tiles ++ [sp]).length) &&
                    ((tiles ++ [sp]).getLast? == (tiles ++ [sp]).head?))) =
                  !(Chain.is_loop _)
                congr 1
                simp only [Chain.is_loop, Chain.start_pos, Chain.end_pos]
                exact splice_is_loop_eq hlast hspne
              · show ((tiles ++ [sp]).dropLast).Nodup
                rw [List.dropLast_concat]
                exact hnd
            · exact hrc c hc2
          · simp only [List.map_cons, List.length_cons]
            rw [hrcids]
            rfl
        · -- CASE C, dead end: impossible, an active neighbor exists
          rename_i hvlen
          exfalso
          obtain ⟨nb, hnbm, hnba⟩ := hnb
          rcases ((hok nb).2.2) with hv0 | hv1
          · have : nb ∈ unvisited_nbs g cur :=
              mem_unvisited_nbs.2 ⟨hnbm, hnba, hv0⟩
            rw [heq] at this
            cases this
          · have : nb ∈ visited_nbs g cur :=
              mem_visited_nbs.2 ⟨hnbm, hnba, hv1⟩
            exact hvlen (List.length_pos.2 (List.ne_nil_of_mem this))
    · -- BranchesGood (f+1)
      intro origin dir main_nb cands g steps tiles rc pcid out g' hrun hin hact
        hok hlen hvis hnd hcands hpc hrc hrcids
      unfold edge_runner_branches at hrun
      split at hrun
      · -- cands = []
        simp only [Option.some.injEq, Prod.mk.injEq] at hrun
        obtain ⟨rfl, rfl⟩ := hrun
        exact { cellsOK := hok, mono := visMono_refl g,
                shape := sameShapeAct_refl g, chainsOK := hrc, ids := hrcids }
      · -- cands = nb :: rest
        rename_i nb rest
        split at hrun
        · -- nb = main_neighbor: skip
          exact ihB origin dir main_nb rest g steps tiles rc pcid out g' hrun
            hin hact hok hlen hvis hnd
            (fun nb' h => hcands nb' (List.mem_cons_of_mem _ h)) hpc hrc hrcids
        · -- nb ≠ main_neighbor: spawn a branch
          rename_i hmain
          split at hrun
          · cases hrun
          rename_i branch_dir hgd
          split at hrun
          · cases hrun
          rename_i branch_dist hgdist
          split at hrun
          · cases hrun
          rename_i bres bchains g2 heqrec
          obtain ⟨hnbmem, hnbact, hnbnin⟩ := hcands nb (List.mem_cons_self _ _)
          have hbcid : (0 : Int) ≤ pcid + (rc.length : Int) + 1 := by
            have : (0 : Int) ≤ (rc.length : Int) := Int.natCast_nonneg _
            omega
          have hbidx : (0 : Int) ≤ ((tiles ++ [nb]).length : Int) - 1 := by
            simp [List.length_append]
          have hndb : (tiles ++ [nb]).Nodup := by
            refine List.Nodup.append hnd (List.nodup_singleton nb) ?_
            intro a ha hb
            rw [List.mem_singleton] at hb
            exact hnbnin (hb ▸ ha)
          have hR := ihR nb branch_dir _ _ (tiles ++ [nb])
            (pcid + (rc.length : Int) + 1) bchains g2 heqrec
            (by rw [in_bounds_eq_of_dims rfl rfl]
                exact in_bounds_of_mem_neighbors hnbmem)
            (by rw [claim_activation]; exact hnbact)
            (by refine ⟨origin, ?_, ?_⟩
                · rw [get_neighbors_8_eq_of_dims rfl rfl]
                  exact mem_neighbors_symm hnbmem hin
                · rw [claim_activation]; exact hact)
            (claim_cellsOK hok nb hbcid hbidx)
            (by simp [hlen])
            (List.getLast?_concat _)
            (by rw [List.dropLast_concat]
                intro t ht
                exact claim_mono g nb _ _ t (hvis t ht))
            hndb hbcid
          obtain ⟨R, hnbvis⟩ := hR
          have sg2 : SameShapeAct g g2 :=
            sameShapeAct_trans (claim_shape g nb _ _) R.shape
          have mg2 : VisMono g g2 :=
            visMono_trans (claim_mono g nb _ _) R.mono
          have B2 := ihB origin dir main_nb rest g2 steps tiles (rc ++ bchains)
            pcid out g' hrun
            (by rw [in_bounds_eq_of_dims sg2.1 sg2.2.1]; exact hin)
            (by rw [sg2.2.2 origin]; exact hact)
            R.cellsOK hlen
            (fun t ht => mg2 t (hvis t ht))
            hnd
            (by intro nb' h
                obtain ⟨hm, ha, hni⟩ := hcands nb' (List.mem_cons_of_mem _ h)
                refine ⟨?_, ?_, hni⟩
                · rw [get_neighbors_8_eq_of_dims sg2.1 sg2.2.1]; exact hm
                · rw [sg2.2.2 nb']; exact ha)
            hpc
            (by intro c hc
                rcases List.mem_append.1 hc with h | h
                · exact hrc c h
                · exact R.chainsOK c h)
            (by rw [List.map_append, hrcids, R.ids, List.length_append,
                  id_list_append]
                congr 2
                omega)
          exact { cellsOK := B2.cellsOK,
                  mono := visMono_trans mg2 B2.mono,
                  shape := sameShapeAct_trans sg2 B2.shape,
                  chainsOK := B2.chainsOK,
                  ids := B2.ids }

/-! ## The seed loop -/

theorem find_initial_some_some {pos : Pos} {g : CellGrid} {d : Nat}
    (h : find_initial_direction pos g = some (some d)) :
    ∃ nb ∈ get_neighbors_8 pos g, (g.cells nb).activation = 1 := by
  unfold find_initial_direction at h
  split at h
  · simp at h
  · rename_i nb hfind
    refine ⟨nb, List.mem_of_find?_eq_some hfind, ?_⟩
    have := List.find?_some hfind
    simpa using this

theorem mem_row_major {h w : Nat} {p : Pos} :
    p ∈ row_major h w ↔
      ∃ i : Nat, i < h ∧ ∃ j : Nat, j < w ∧ p = ((i : Int), (j : Int)) := by
  unfold row_major
  rw [List.mem_flatMap]
  constructor
  · rintro ⟨i, hi, hmem⟩
    rw [List.mem_map] at hmem
    obtain ⟨j, hj, rfl⟩ := hmem
    exact ⟨i, List.mem_range.1 hi, j, List.mem_range.1 hj, rfl⟩
  · rintro ⟨i, hi, j, hj, rfl⟩
    exact ⟨i, List.mem_range.2 hi, List.mem_map.2 ⟨j, List.mem_range.2 hj, rfl⟩⟩

theorem mem_seed_list {g : CellGrid} {p : Pos} :
    p ∈ seed_list g ↔
      ((∃ i : Nat, i < g.height ∧ ∃ j : Nat, j < g.width ∧
        p = ((i : Int), (j : Int))) ∧
       (g.cells p).activation = 1 ∧ (g.cells p).visited = 0) := by
  unfold seed_list
  rw [List.mem_filter, mem_row_major]
  simp only [Bool.and_eq_true, beq_iff_eq]

theorem seed_in_bounds {g : CellGrid} {p : Pos} (h : p ∈ seed_list g) :
    g.in_bounds p.1 p.2 = true := by
  obtain ⟨⟨i, hi, j, hj, rfl⟩, -, -⟩ := mem_seed_list.1 h
  simp only [CellGrid.in_bounds, Bool.and_eq_true, decide_eq_true_eq]
  refine ⟨⟨⟨?_, ?_⟩, ?_⟩, ?_⟩ <;> omega

/-- Main invariant of the `for seed_pos in seeds` loop. -/
theorem seeds_loop_good :
    ∀ (seeds : List Pos) (chains : List Chain) (g : CellGrid)
      (out : List Chain) (g' : CellGrid),
      seeds_loop seeds chains g = some (out, g') →
      CellsOK g →
      (∀ s ∈ seeds, g.in_bounds s.1 s.2 = true ∧ (g.cells s).activation = 1) →
      (∀ c ∈ chains, ChainOK c) →
      chains.map Chain.chain_id = id_list 0 chains.length →
      CellsOK g' ∧ VisMono g g' ∧ SameShapeAct g g' ∧
      (∀ s ∈ seeds, (g'.cells s).visited = 1) ∧
      (∀ c ∈ out, ChainOK c) ∧
      out.map Chain.chain_id = id_list 0 out.length := by
  intro seeds
  induction seeds with
  | nil =>
    intro chains g out g' hrun hok hs hch hcid
    unfold seeds_loop at hrun
    simp only [Option.some.injEq, Prod.mk.injEq] at hrun
    obtain ⟨rfl, rfl⟩ := hrun
    exact ⟨hok, visMono_refl g, sameShapeAct_refl g,
      fun s hsm => absurd hsm (List.not_mem_nil s), hch, hcid⟩
  | cons s rest ih =>
    intro chains g out g' hrun hok hs hch hcid
    unfold seeds_loop at hrun
    split at hrun
    · -- seed already visited: skip
      rename_i hv
      rw [beq_iff_eq] at hv
      have IH := ih chains g out g' hrun hok
        (fun x hx => hs x (List.mem_cons_of_mem _ hx)) hch hcid
      refine ⟨IH.1, IH.2.1, IH.2.2.1, ?_, IH.2.2.2.2.1, IH.2.2.2.2.2⟩
      intro x hx
      rcases List.mem_cons.1 hx with rfl | hx2
      · exact IH.2.1 x hv
      · exact IH.2.2.2.1 x hx2
    · rename_i hv
      split at hrun
      · cases hrun
      · -- isolated seed: mark visited and move on
        rename_i hfid
        have hsetOK : CellsOK (g.setVisited s 1) := setVisited_one_cellsOK hok s
        have hset_shape : SameShapeAct g (g.setVisited s 1) :=
          setVisited_shape g s 1
        have IH := ih chains (g.setVisited s 1) out g' hrun hsetOK
          (by intro x hx
              obtain ⟨hb, ha⟩ := hs x (List.mem_cons_of_mem _ hx)
              refine ⟨?_, ?_⟩
              · rw [in_bounds_eq_of_dims hset_shape.1 hset_shape.2.1]; exact hb
              · rw [hset_shape.2.2 x]; exact ha)
          hch hcid
        refine ⟨IH.1, visMono_trans (setVisited_one_mono g s) IH.2.1,
          sameShapeAct_trans hset_shape IH.2.2.1, ?_, IH.2.2.2.2.1,
          IH.2.2.2.2.2⟩
        intro x hx
        rcases List.mem_cons.1 hx with rfl | hx2
        · refine IH.2.1 x ?_
          rw [setVisited_cells]
          simp
        · exact IH.2.2.2.1 x hx2
      · -- real seed: run the tracer
        rename_i d hfid
        split at hrun
        · cases hrun
        rename_i pr new_chains g2 hrec
        obtain ⟨hb, ha⟩ := hs s (List.mem_cons_self _ _)
        have hnb := find_initial_some_some hfid
        have hR := (runner_good (runner_fuel g)).1 s d g [] [s]
          (chains.length : Int) new_chains g2 hrec hb ha hnb hok
          (by simp) (by simp) (by simp) (List.nodup_singleton s)
          (Int.natCast_nonneg _)
        obtain ⟨R, hsvis⟩ := hR
        have IH := ih (chains ++ new_chains) g2 out g' hrun R.cellsOK
          (by intro x hx
              obtain ⟨hb2, ha2⟩ := hs x (List.mem_cons_of_mem _ hx)
              refine ⟨?_, ?_⟩
              · rw [in_bounds_eq_of_dims R.shape.1 R.shape.2.1]; exact hb2
              · rw [R.shape.2.2 x]; exact ha2)
          (by intro c hc
              rcases List.mem_append.1 hc with h | h
              · exact hch c h
              · exact R.chainsOK c h)
          (by rw [List.map_append, hcid, R.ids, List.length_append,
                id_list_append]
              congr 2
              simp)
        refine ⟨IH.1, visMono_trans R.mono IH.2.1,
          sameShapeAct_trans R.shape IH.2.2.1, ?_, IH.2.2.2.2.1,
          IH.2.2.2.2.2⟩
        intro x hx
        rcases List.mem_cons.1 hx with rfl | hx2
        · exact IH.2.1 x hsvis
        · exact IH.2.2.2.1 x hx2

/-- Everything `extract_chains_from_grid` guarantees on a fresh grid. -/
theorem extract_good {g : CellGrid} {out : List Chain} {g' : CellGrid}
    (hrun : extract_chains_from_grid g = some (out, g')) (hf : Fresh g) :
    CellsOK g' ∧ VisMono g g' ∧ SameShapeAct g g' ∧
    (∀ s ∈ seed_list g, (g'.cells s).visited = 1) ∧
    (∀ c ∈ out, ChainOK c) ∧
    out.map Chain.chain_id = id_list 0 out.length := by
  have hok : CellsOK g := by
    intro p
    obtain ⟨h1, h2, h3⟩ := hf p
    rw [h1, h2, h3]
    refine ⟨by norm_num, by norm_num, by norm_num⟩
  unfold extract_chains_from_grid at hrun
  exact seeds_loop_good (seed_list g) [] g out g' hrun hok
    (fun s hsm => ⟨seed_in_bounds hsm, (mem_seed_list.1 hsm).2.1⟩)
    (fun c hc => absurd hc (List.not_mem_nil c))
    rfl

/-! ## Claim theorems -/

theorem grid_of_act_fresh (h w : Nat) (act : List (List Int)) :
    Fresh (grid_of_act h w act) := by
  intro p
  unfold grid_of_act
  dsimp only
  split <;> exact ⟨rfl, rfl, rfl⟩

/-- C1: for every fresh grid, whenever `extract_chains_from_grid` runs to
    completion, every in-bounds tile whose activation is 1 ends with
    `visited == 1`, whether or not it ever became the start of an emitted
    chain (isolated activated tiles are marked visited too). -/
theorem c1_all_activated_visited (g : CellGrid) (out : List Chain)
    (g' : CellGrid) (hf : Fresh g)
    (hrun : extract_chains_from_grid g = some (out, g'))
    (i j : Nat) (hi : i < g.height) (hj : j < g.width)
    (ha : (g.cells (Int.ofNat i, Int.ofNat j)).activation = 1) :
    (g'.cells (Int.ofNat i, Int.ofNat j)).visited = 1 := by
  have hseed : (Int.ofNat i, Int.ofNat j) ∈ seed_list g :=
    mem_seed_list.2 ⟨⟨i, hi, j, hj, rfl⟩, ha, (hf _).1⟩
  exact (extract_good hrun hf).2.2.2.1 _ hseed

/-- Witness for C1 on a concrete 1×2 grid with both tiles activated. -/
theorem c1_witness :
    Fresh wgrid2 ∧
    extract_chains_from_grid wgrid2 =
      some (((extract_chains_from_grid wgrid2).getD ([], wgrid2)).1,
        ((extract_chains_from_grid wgrid2).getD ([], wgrid2)).2) ∧
    ((((extract_chains_from_grid wgrid2).getD ([], wgrid2)).2).cells
      (Int.ofNat 0, Int.ofNat 1)).visited = 1 :=
  ⟨grid_of_act_fresh 1 2 [[1, 1]], rfl,
   c1_all_activated_visited wgrid2
     ((extract_chains_from_grid wgrid2).getD ([], wgrid2)).1
     ((extract_chains_from_grid wgrid2).getD ([], wgrid2)).2
     (grid_of_act_fresh 1 2 [[1, 1]]) rfl 0 1 (by decide) (by decide)
     (by decide)⟩

/-- C4: every chain emitted by the tracer has `spliced` true exactly when
    it is not a closed loop: a chain that terminates by stepping onto an
    already-visited tile differing from its own first tile is marked
    spliced, while a chain whose final tile equals its first tile has
    `spliced == False` (loop-ness takes precedence).  (Dead-end
    termination also sets `spliced == False`; given the grid invariants
    it never actually fires, since the tile a chain stands on always has
    at least one active neighbor behind it.) -/
theorem c4_spliced_iff_not_loop (g : CellGrid) (out : List Chain)
    (g' : CellGrid) (hf : Fresh g)
    (hrun : extract_chains_from_grid g = some (out, g'))
    (c : Chain) (hc : c ∈ out) : c.spliced = !c.is_loop :=
  ((extract_good hrun hf).2.2.2.2.1 c hc).2.2.1

/-- Witness for C4: the single chain traced on a 1×2 grid is a 2-tile
    loop (it splices back onto its own seed), so `spliced = False`. -/
theorem c4_witness :
    Fresh wgrid2 ∧
    extract_chains_from_grid wgrid2 =
      some (((extract_chains_from_grid wgrid2).getD ([], wgrid2)).1,
        ((extract_chains_from_grid wgrid2).getD ([], wgrid2)).2) ∧
    (((extract_chains_from_grid wgrid2).getD ([], wgrid2)).1.getD 0 default) ∈
      ((extract_chains_from_grid wgrid2).getD ([], wgrid2)).1 ∧
    (((extract_chains_from_grid wgrid2).getD ([], wgrid2)).1.getD 0
      default).spliced =
      !(((extract_chains_from_grid wgrid2).getD ([], wgrid2)).1.getD 0
        default).is_loop :=
  ⟨grid_of_act_fresh 1 2 [[1, 1]], rfl, by decide,
   c4_spliced_iff_not_loop wgrid2
     ((extract_chains_from_grid wgrid2).getD ([], wgrid2)).1
     ((extract_chains_from_grid wgrid2).getD ([], wgrid2)).2
     (grid_of_act_fresh 1 2 [[1, 1]]) rfl _ (by decide)⟩

/-- C7: every chain returned by `extract_chains_from_grid` satisfies
    `len(tiles) == len(steps) + 1`. -/
theorem c7_tiles_eq_steps_succ (g : CellGrid) (out : List Chain)
    (g' : CellGrid) (hf : Fresh g)
    (hrun : extract_chains_from_grid g = some (out, g'))
    (c : Chain) (hc : c ∈ out) : c.tiles.length = c.steps.length + 1 :=
  ((extract_good hrun hf).2.2.2.2.1 c hc).2.1

/-- Witness for C7 on the 1×2 grid. -/
theorem c7_witness :
    Fresh wgrid2 ∧
    extract_chains_from_grid wgrid2 =
      some (((extract_chains_from_grid wgrid2).getD ([], wgrid2)).1,
        ((extract_chains_from_grid wgrid2).getD ([], wgrid2)).2) ∧
    (((extract_chains_from_grid wgrid2).getD ([], wgrid2)).1.getD 0 default) ∈
      ((extract_chains_from_grid wgrid2).getD ([], wgrid2)).1 ∧
    (((extract_chains_from_grid wgrid2).getD ([], wgrid2)).1.getD 0
      default).tiles.length =
      (((extract_chains_from_grid wgrid2).getD ([], wgrid2)).1.getD 0
        default).steps.length + 1 :=
  ⟨grid_of_act_fresh 1 2 [[1, 1]], rfl, by decide,
   c7_tiles_eq_steps_succ wgrid2
     ((extract_chains_from_grid wgrid2).getD ([], wgrid2)).1
     ((extract_chains_from_grid wgrid2).getD ([], wgrid2)).2
     (grid_of_act_fresh 1 2 [[1, 1]]) rfl _ (by decide)⟩

/-- C8: the chains returned by one call to `extract_chains_from_grid`
    carry pairwise distinct `chain_id`s (in fact the id sequence is
    exactly `0, 1, 2, ...` in output order, so no id is ever reused by a
    later chain of the same trace). -/
theorem c8_chain_ids_distinct (g : CellGrid) (out : List Chain)
    (g' : CellGrid) (hf : Fresh g)
    (hrun : extract_chains_from_grid g = some (out, g')) :
    (out.map Chain.chain_id).Nodup := by
  rw [(extract_good hrun hf).2.2.2.2.2]
  exact id_list_nodup 0 out.length

/-- Witness for C8 on the 1×2 grid. -/
theorem c8_witness :
    Fresh wgrid2 ∧
    extract_chains_from_grid wgrid2 =
      some (((extract_chains_from_grid wgrid2).getD ([], wgrid2)).1,
        ((extract_chains_from_grid wgrid2).getD ([], wgrid2)).2) ∧
    (((extract_chains_from_grid wgrid2).getD ([], wgrid2)).1.map
      Chain.chain_id).Nodup :=
  ⟨grid_of_act_fresh 1 2 [[1, 1]], rfl,
   c8_chain_ids_distinct wgrid2
     ((extract_chains_from_grid wgrid2).getD ([], wgrid2)).1
     ((extract_chains_from_grid wgrid2).getD ([], wgrid2)).2
     (grid_of_act_fresh 1 2 [[1, 1]]) rfl⟩

/-- C10: every chain returned by `extract_chains_from_grid` contains at
    least 2 tiles: an activated tile with no activated 8-neighbor is
    marked visited but yields no chain, and every seed that starts a
    chain appends at least one further tile before terminating. -/
theorem c10_chains_at_least_two_tiles (g : CellGrid) (out : List Chain)
    (g' : CellGrid) (hf : Fresh g)
    (hrun : extract_chains_from_grid g = some (out, g'))
    (c : Chain) (hc : c ∈ out) : 2 ≤ c.tiles.length :=
  ((extract_good hrun hf).2.2.2.2.1 c hc).1

/-- Witness for C10 on the 1×2 grid. -/
theorem c10_witness :
    Fresh wgrid2 ∧
    extract_chains_from_grid wgrid2 =
      some (((extract_chains_from_grid wgrid2).getD ([], wgrid2)).1,
        ((extract_chains_from_grid wgrid2).getD ([], wgrid2)).2) ∧
    (((extract_chains_from_grid wgrid2).getD ([], wgrid2)).1.getD 0 default) ∈
      ((extract_chains_from_grid wgrid2).getD ([], wgrid2)).1 ∧
    2 ≤ (((extract_chains_from_grid wgrid2).getD ([], wgrid2)).1.getD 0
      default).tiles.length :=
  ⟨grid_of_act_fresh 1 2 [[1, 1]], rfl, by decide,
   c10_chains_at_least_two_tiles wgrid2
     ((extract_chains_from_grid wgrid2).getD ([], wgrid2)).1
     ((extract_chains_from_grid wgrid2).getD ([], wgrid2)).2
     (grid_of_act_fresh 1 2 [[1, 1]]) rfl _ (by decide)⟩

/-- C5 counterexample: on a fresh 1×1 grid whose only tile is activated,
    `extract_chains_from_grid` completes and leaves that tile with
    `visited == 1` while `chain_id` and `index_in_chain` are still `-1`
    (the isolated-seed path at `edge_runner.py:38` sets only `visited`),
    so "visited == 1 iff chain_id >= 0 iff index_in_chain >= 0" fails. -/
theorem c5_counterexample :
    Fresh c5_cx_grid ∧
    extract_chains_from_grid c5_cx_grid =
      some (((extract_chains_from_grid c5_cx_grid).getD ([], c5_cx_grid)).1,
        ((extract_chains_from_grid c5_cx_grid).getD ([], c5_cx_grid)).2) ∧
    ((((extract_chains_from_grid c5_cx_grid).getD ([], c5_cx_grid)).2).cells
      (0, 0)).visited = 1 ∧
    ((((extract_chains_from_grid c5_cx_grid).getD ([], c5_cx_grid)).2).cells
      (0, 0)).chain_id = -1 ∧
    ¬ (0 ≤ ((((extract_chains_from_grid c5_cx_grid).getD
      ([], c5_cx_grid)).2).cells (0, 0)).chain_id) :=
  ⟨grid_of_act_fresh 1 1 [[1]], rfl, by decide, by decide, by decide⟩

/-- C5 (amended): after `extract_chains_from_grid` completes on a fresh
    grid, every cell satisfies `chain_id >= 0` iff `index_in_chain >= 0`,
    and a cell with `chain_id >= 0` has `visited == 1`; but `visited == 1`
    does not imply ownership, because an isolated activated tile is marked
    visited with `chain_id == index_in_chain == -1`. -/
theorem c5_amended_ownership_invariant (g : CellGrid) (out : List Chain)
    (g' : CellGrid) (hf : Fresh g)
    (hrun : extract_chains_from_grid g = some (out, g')) (p : Pos) :
    (0 ≤ (g'.cells p).chain_id ↔ 0 ≤ (g'.cells p).index_in_chain) ∧
    (0 ≤ (g'.cells p).chain_id → (g'.cells p).visited = 1) := by
  obtain ⟨h1, h2, -⟩ := (extract_good hrun hf).1 p
  exact ⟨h1, h2⟩

/-- Witness for the amended C5 on the 1×2 grid. -/
theorem c5_witness :
    Fresh wgrid2 ∧
    extract_chains_from_grid wgrid2 =
      some (((extract_chains_from_grid wgrid2).getD ([], wgrid2)).1,
        ((extract_chains_from_grid wgrid2).getD ([], wgrid2)).2) ∧
    ((0 ≤ ((((extract_chains_from_grid wgrid2).getD ([], wgrid2)).2).cells
        (0, 0)).chain_id ↔
      0 ≤ ((((extract_chains_from_grid wgrid2).getD ([], wgrid2)).2).cells
        (0, 0)).index_in_chain) ∧
     (0 ≤ ((((extract_chains_from_grid wgrid2).getD ([], wgrid2)).2).cells
        (0, 0)).chain_id →
      ((((extract_chains_from_grid wgrid2).getD ([], wgrid2)).2).cells
        (0, 0)).visited = 1)) :=
  ⟨grid_of_act_fresh 1 2 [[1, 1]], rfl,
   c5_amended_ownership_invariant wgrid2
     ((extract_chains_from_grid wgrid2).getD ([], wgrid2)).1
     ((extract_chains_from_grid wgrid2).getD ([], wgrid2)).2
     (grid_of_act_fresh 1 2 [[1, 1]]) rfl (0, 0)⟩

/-- C6 counterexample: on a fresh 3×3 grid with activations at (0,0),
    (0,2), (1,1), (2,1), tracing completes with two distinct chains whose
    tiles are [(0,0),(1,1),(2,1),(1,1)] and [(0,0),(1,1),(0,2),(1,1)];
    position (0,0) (and likewise (1,1)) is a non-final entry of both,
    because a branch chain deep-copies the parent's tile prefix.  This
    refutes "no tile position occurs as a non-final (interior) entry of
    the tiles list of two different chains". -/
theorem c6_counterexample :
    Fresh c6_cx_grid ∧
    extract_chains_from_grid c6_cx_grid =
      some (((extract_chains_from_grid c6_cx_grid).getD ([], c6_cx_grid)).1,
        ((extract_chains_from_grid c6_cx_grid).getD ([], c6_cx_grid)).2) ∧
    (((extract_chains_from_grid c6_cx_grid).getD ([], c6_cx_grid)).1.getD 0
        default ≠
      ((extract_chains_from_grid c6_cx_grid).getD ([], c6_cx_grid)).1.getD 1
        default) ∧
    (((extract_chains_from_grid c6_cx_grid).getD ([], c6_cx_grid)).1.getD 0
        default) ∈
      ((extract_chains_from_grid c6_cx_grid).getD ([], c6_cx_grid)).1 ∧
    (((extract_chains_from_grid c6_cx_grid).getD ([], c6_cx_grid)).1.getD 1
        default) ∈
      ((extract_chains_from_grid c6_cx_grid).getD ([], c6_cx_grid)).1 ∧
    ((0 : Int), (0 : Int)) ∈
      (((extract_chains_from_grid c6_cx_grid).getD ([], c6_cx_grid)).1.getD 0
        default).tiles.dropLast ∧
    ((0 : Int), (0 : Int)) ∈
      (((extract_chains_from_grid c6_cx_grid).getD ([], c6_cx_grid)).1.getD 1
        default).tiles.dropLast :=
  ⟨grid_of_act_fresh 3 3 [[1, 0, 1], [0, 1, 0], [0, 1, 0]], rfl, by decide,
   by decide, by decide, by decide, by decide⟩

/-- C6 (amended): interior disjointness holds within each single chain
    but not across chains.  Within one emitted chain no tile position
    occurs twice among the non-final entries (only the final splice tile
    may repeat an earlier tile); across two different chains a position
    can be a non-final entry of both, because every spawned branch chain
    copies its parent's tile prefix up to the branch point (and a branch
    can even re-claim a tile an earlier sibling branch already visited). -/
theorem c6_amended_interior_nodup (g : CellGrid) (out : List Chain)
    (g' : CellGrid) (hf : Fresh g)
    (hrun : extract_chains_from_grid g = some (out, g'))
    (c : Chain) (hc : c ∈ out) : c.tiles.dropLast.Nodup :=
  ((extract_good hrun hf).2.2.2.2.1 c hc).2.2.2

/-- Witness for the amended C6 on the 1×2 grid. -/
theorem c6_witness :
    Fresh wgrid2 ∧
    extract_chains_from_grid wgrid2 =
      some (((extract_chains_from_grid wgrid2).getD ([], wgrid2)).1,
        ((extract_chains_from_grid wgrid2).getD ([], wgrid2)).2) ∧
    (((extract_chains_from_grid wgrid2).getD ([], wgrid2)).1.getD 0 default) ∈
      ((extract_chains_from_grid wgrid2).getD ([], wgrid2)).1 ∧
    (((extract_chains_from_grid wgrid2).getD ([], wgrid2)).1.getD 0
      default).tiles.dropLast.Nodup :=
  ⟨grid_of_act_fresh 1 2 [[1, 1]], rfl, by decide,
   c6_amended_interior_nodup wgrid2
     ((extract_chains_from_grid wgrid2).getD ([], wgrid2)).1
     ((extract_chains_from_grid wgrid2).getD ([], wgrid2)).2
     (grid_of_act_fresh 1 2 [[1, 1]]) rfl _ (by decide)⟩

/-- C2: `filter_chains` returns exactly the order-preserving subsequence
    of its input chains satisfying `len(tiles) >= min_length` AND
    (`is_loop()` OR `spliced` OR `start_pos`/`end_pos` on the grid border,
    a `None` position counting as not touching); in particular the length
    check dominates every keep rule, so a short closed loop is dropped. -/
theorem c2_filter_chains_spec (chains : List Chain)
    (grid_height grid_width min_length : Int) :
    filter_chains chains grid_height grid_width min_length =
      chains.filter (spec_keep grid_height grid_width min_length) := by
  induction chains with
  | nil => rfl
  | cons c rest ih =>
    unfold filter_chains
    rw [List.filter_cons, ih]
    by_cases h1 : (c.tiles.length : Int) < min_length
    · have hml : ¬ (min_length ≤ (c.tiles.length : Int)) := by omega
      simp [spec_keep, h1, hml]
    · have hml : min_length ≤ (c.tiles.length : Int) := by omega
      by_cases h2 : c.is_loop = true
      · simp [spec_keep, h1, hml, h2]
      · by_cases h3 : c.spliced = true
        · simp [spec_keep, h1, hml, h2, h3]
        · by_cases h4 : touches_border c.start_pos grid_height grid_width = true
          · simp [spec_keep, h1, hml, h2, h3, h4]
          · by_cases h5 : touches_border c.end_pos grid_height grid_width = true
            · simp [spec_keep, h1, hml, h2, h3, h4, h5]
            · simp [spec_keep, h1, hml, h2, h3, h4, h5]

/-- C3: `edge_filler` returns a grid of identical height and width whose
    activation at an in-bounds `(i, j)` is 1 iff the input's activation
    there is 1, or some direction offset `(dx, dy)` among the 8 has both
    `(i-dx, j-dy)` and `(i+dx, j+dy)` in bounds and activated in the
    original input plane (the decision only ever reads the original
    plane, so no cascading), and whose `visited`/`chain_id`/
    `index_in_chain` fields are at their fresh defaults. -/
theorem c3_edge_filler_spec (g : CellGrid) (i j : Nat)
    (hi : i < g.height) (hj : j < g.width) :
    (edge_filler g).height = g.height ∧ (edge_filler g).width = g.width ∧
    (((edge_filler g).cells (Int.ofNat i, Int.ofNat j)).activation = 1 ↔
      ((g.cells (Int.ofNat i, Int.ofNat j)).activation = 1 ∨
       ∃ d ∈ DIRECTION_VECTORS,
         g.in_bounds (Int.ofNat i - d.1) (Int.ofNat j - d.2) = true ∧
         g.in_bounds (Int.ofNat i + d.1) (Int.ofNat j + d.2) = true ∧
         (g.cells (Int.ofNat i - d.1, Int.ofNat j - d.2)).activation = 1 ∧
         (g.cells (Int.ofNat i + d.1, Int.ofNat j + d.2)).activation = 1)) ∧
    ((edge_filler g).cells (Int.ofNat i, Int.ofNat j)).visited = 0 ∧
    ((edge_filler g).cells (Int.ofNat i, Int.ofNat j)).chain_id = -1 ∧
    ((edge_filler g).cells (Int.ofNat i, Int.ofNat j)).index_in_chain = -1 := by
  have hb : g.in_bounds (Int.ofNat i) (Int.ofNat j) = true := by
    simp only [CellGrid.in_bounds, Bool.and_eq_true, decide_eq_true_eq,
      Int.ofNat_eq_coe]
    refine ⟨⟨⟨?_, ?_⟩, ?_⟩, ?_⟩ <;> omega
  have hcell : (edge_filler g).cells (Int.ofNat i, Int.ofNat j) =
      (if (g.cells (Int.ofNat i, Int.ofNat j)).activation == 1 then
        ({ activation := (g.cells (Int.ofNat i, Int.ofNat j)).activation } : Cell)
      else if DIRECTION_VECTORS.any (fun d =>
          g.in_bounds (Int.ofNat i - d.1) (Int.ofNat j - d.2) &&
          g.in_bounds (Int.ofNat i + d.1) (Int.ofNat j + d.2) &&
          ((g.cells (Int.ofNat i - d.1, Int.ofNat j - d.2)).activation == 1) &&
          ((g.cells (Int.ofNat i + d.1, Int.ofNat j + d.2)).activation == 1))
        then ({ activation := 1 } : Cell)
      else ({ activation :=
        (g.cells (Int.ofNat i, Int.ofNat j)).activation } : Cell)) := by
    show (if g.in_bounds (Int.ofNat i) (Int.ofNat j) = true then _ else _) = _
    rw [if_pos hb]
  by_cases ha : (g.cells (Int.ofNat i, Int.ofNat j)).activation = 1
  · have hval : (edge_filler g).cells (Int.ofNat i, Int.ofNat j) =
        ({ activation := (g.cells (Int.ofNat i, Int.ofNat j)).activation } :
          Cell) := by
      rw [hcell, if_pos (by rw [ha]; rfl :
        ((g.cells (Int.ofNat i, Int.ofNat j)).activation == 1) = true)]
    refine ⟨rfl, rfl, ?_, ?_, ?_, ?_⟩ <;> rw [hval]
    exact iff_of_true ha (Or.inl ha)
  · have hbeq : ((g.cells (Int.ofNat i, Int.ofNat j)).activation == 1) =
        false := beq_eq_false_iff_ne.2 ha
    by_cases hany : (DIRECTION_VECTORS.any (fun d =>
        g.in_bounds (Int.ofNat i - d.1) (Int.ofNat j - d.2) &&
        g.in_bounds (Int.ofNat i + d.1) (Int.ofNat j + d.2) &&
        ((g.cells (Int.ofNat i - d.1, Int.ofNat j - d.2)).activation == 1) &&
        ((g.cells (Int.ofNat i + d.1, Int.ofNat j + d.2)).activation == 1)))
        = true
    · have hval : (edge_filler g).cells (Int.ofNat i, Int.ofNat j) =
          ({ activation := 1 } : Cell) := by
        rw [hcell, hbeq]
        simp only [Bool.false_eq_true, if_false]
        rw [if_pos hany]
      obtain ⟨d, hd, hconj⟩ := List.any_eq_true.1 hany
      simp only [Bool.and_eq_true, beq_iff_eq] at hconj
      refine ⟨rfl, rfl, ?_, ?_, ?_, ?_⟩ <;> rw [hval]
      exact iff_of_true rfl
        (Or.inr ⟨d, hd, hconj.1.1.1, hconj.1.1.2, hconj.1.2, hconj.2⟩)
    · have hval : (edge_filler g).cells (Int.ofNat i, Int.ofNat j) =
          ({ activation :=
            (g.cells (Int.ofNat i, Int.ofNat j)).activation } : Cell) := by
        rw [hcell, hbeq]
        simp only [Bool.false_eq_true, if_false]
        rw [if_neg (by rw [Bool.not_eq_true] at hany ⊢; exact hany)]
      refine ⟨rfl, rfl, ?_, ?_, ?_, ?_⟩ <;> rw [hval]
      refine iff_of_false ha ?_
      rintro (h | ⟨d, hd, hb1, hb2, hb3, hb4⟩)
      · exact ha h
      · refine hany (List.any_eq_true.2 ⟨d, hd, ?_⟩)
        simp only [Bool.and_eq_true, beq_iff_eq]
        exact ⟨⟨⟨hb1, hb2⟩, hb3⟩, hb4⟩

/-- Witness for C3: a 1×3 grid with a 1-0-1 pattern; the middle tile is
    in bounds and the filled activation there is 1 by the sandwich rule. -/
theorem c3_witness :
    (0 < (grid_of_act 1 3 [[1, 0, 1]]).height ∧
     1 < (grid_of_act 1 3 [[1, 0, 1]]).width) ∧
    (((edge_filler (grid_of_act 1 3 [[1, 0, 1]])).cells
        (Int.ofNat 0, Int.ofNat 1)).activation = 1 ↔
      (((grid_of_act 1 3 [[1, 0, 1]]).cells
        (Int.ofNat 0, Int.ofNat 1)).activation = 1 ∨
       ∃ d ∈ DIRECTION_VECTORS,
         (grid_of_act 1 3 [[1, 0, 1]]).in_bounds
           (Int.ofNat 0 - d.1) (Int.ofNat 1 - d.2) = true ∧
         (grid_of_act 1 3 [[1, 0, 1]]).in_bounds
           (Int.ofNat 0 + d.1) (Int.ofNat 1 + d.2) = true ∧
         ((grid_of_act 1 3 [[1, 0, 1]]).cells
           (Int.ofNat 0 - d.1, Int.ofNat 1 - d.2)).activation = 1 ∧
         ((grid_of_act 1 3 [[1, 0, 1]]).cells
           (Int.ofNat 0 + d.1, Int.ofNat 1 + d.2)).activation = 1)) ∧
    ((edge_filler (grid_of_act 1 3 [[1, 0, 1]])).cells
      (Int.ofNat 0, Int.ofNat 1)).visited = 0 :=
  ⟨⟨by decide, by decide⟩,
   (c3_edge_filler_spec (grid_of_act 1 3 [[1, 0, 1]]) 0 1 (by decide)
     (by decide)).2.2.1,
   (c3_edge_filler_spec (grid_of_act 1 3 [[1, 0, 1]]) 0 1 (by decide)
     (by decide)).2.2.2.1⟩

/-- C9 (code bug): `CellGrid.set_activation_map` performs no shape check.
    A 2×1 plane supplied to a 1×1 grid is silently truncated (no error is
    signalled and the extra row is ignored), and a 1×1 plane supplied to
    a 1×2 grid mutates cell (0,0) before the out-of-range read raises, so
    a mismatched plane is neither rejected at the boundary nor kept from
    partially mutating the grid. -/
theorem c9_no_shape_check :
    ((set_activation_map (CellGrid.init 1 1) [[1], [1]]).2 = false ∧
     ((set_activation_map (CellGrid.init 1 1) [[1], [1]]).1.cells
       (0, 0)).activation = 1 ∧
     ([[1], [1]] : List (List Int)).length ≠ (CellGrid.init 1 1).height) ∧
    ((set_activation_map (CellGrid.init 1 2) [[5]]).2 = true ∧
     ((set_activation_map (CellGrid.init 1 2) [[5]]).1.cells
       (0, 0)).activation = 5) :=
  ⟨⟨by decide, by decide, by decide⟩, by decide, by decide⟩
